import Mathlib

/-!
Verification of the aggregation-and-simulation layer of the retail
dashboard (src/streamlit_app.py). The sales table is modelled as a list of
records with exact rational amounts; each pandas expression of the script
is embedded as a Lean function on that list, and the spec's testable
properties are proved about those functions.
-/

namespace Retail

/-- Calendar date: the parsed form of the invoice_date column
(src/streamlit_app.py line 17, parse_dates). Only year and month are
consumed by the dashboard (to_period M), day is kept for fidelity. -/
structure Date where
  year : Nat
  month : Nat
  day : Nat
deriving DecidableEq

/-- One row of the processed sales table, restricted to the columns the
script reads. Monetary amounts are modelled exactly as rationals. -/
structure SalesRecord where
  invoice_no : String
  customer_id : String
  shopping_mall : String
  category : String
  quantity : ℚ
  price : ℚ
  payment_method : String
  invoice_date : Date
  revenue : ℚ
deriving DecidableEq

/-- Sum of val over the records of l whose key equals k: one group of a
pandas groupby-sum. -/
def sumFilter {α κ : Type} [DecidableEq κ] (key : α → κ) (val : α → ℚ) (k : κ) (l : List α) : ℚ :=
  ((l.filter fun a => decide (key a = k)).map val).sum

/-- Embedding of l.groupby(key)[val].sum(): one entry per distinct key
occurring in l, carrying that group's sum. Pandas emits the groups in
ascending key order; every use below either re-sorts the result or is
insensitive to the order of entries, so the entry order here is the
first-occurrence order of List.dedup. -/
def groupSum {α κ : Type} [DecidableEq κ] (key : α → κ) (val : α → ℚ) (l : List α) : List (κ × ℚ) :=
  ((l.map key).dedup).map fun k => (k, sumFilter key val k l)

/-- Descending order on (key, value) pairs by value: the relation of
sort_values by the summed column with ascending=False. -/
def descVal {κ : Type} (a b : κ × ℚ) : Prop := b.2 ≤ a.2

instance {κ : Type} : DecidableRel (@descVal κ) :=
  fun a b => inferInstanceAs (Decidable (b.2 ≤ a.2))

instance {κ : Type} : IsTotal (κ × ℚ) descVal :=
  ⟨fun a b => le_total b.2 a.2⟩

instance {κ : Type} : IsTrans (κ × ℚ) descVal :=
  ⟨fun _ _ _ h1 h2 => le_trans h2 h1⟩

/-- Chronological order on (year, month) keys: the order of Period(M)
values used by the monthly groupby. -/
def monthLe (a b : Nat × Nat) : Prop := a.1 < b.1 ∨ (a.1 = b.1 ∧ a.2 ≤ b.2)

/-- Strict chronological order on (year, month) keys. -/
def monthLt (a b : Nat × Nat) : Prop := a.1 < b.1 ∨ (a.1 = b.1 ∧ a.2 < b.2)

instance : DecidableRel monthLe :=
  fun a b => inferInstanceAs (Decidable (a.1 < b.1 ∨ (a.1 = b.1 ∧ a.2 ≤ b.2)))

instance : DecidableRel monthLt :=
  fun a b => inferInstanceAs (Decidable (a.1 < b.1 ∨ (a.1 = b.1 ∧ a.2 < b.2)))

instance : IsTotal (Nat × Nat) monthLe := by
  constructor
  intro a b
  rcases Nat.lt_trichotomy a.1 b.1 with h | h | h
  · exact Or.inl (Or.inl h)
  · rcases Nat.le_total a.2 b.2 with h2 | h2
    · exact Or.inl (Or.inr ⟨h, h2⟩)
    · exact Or.inr (Or.inr ⟨h.symm, h2⟩)
  · exact Or.inr (Or.inl h)

instance : IsTrans (Nat × Nat) monthLe := by
  constructor
  intro a b c hab hbc
  rcases hab with h1 | ⟨h1, h1m⟩ <;> rcases hbc with h2 | ⟨h2, h2m⟩
  · exact Or.inl (h1.trans h2)
  · exact Or.inl (h2 ▸ h1)
  · exact Or.inl (h1 ▸ h2)
  · exact Or.inr ⟨h1.trans h2, h1m.trans h2m⟩

/-- Ordering of month-keyed aggregation entries by their month key. -/
def monthKeyLe (a b : (Nat × Nat) × ℚ) : Prop := monthLe a.1 b.1

instance : DecidableRel monthKeyLe :=
  fun a b => inferInstanceAs (Decidable (monthLe a.1 b.1))

instance : IsTotal ((Nat × Nat) × ℚ) monthKeyLe :=
  ⟨fun a b => IsTotal.total (r := monthLe) a.1 b.1⟩

instance : IsTrans ((Nat × Nat) × ℚ) monthKeyLe :=
  ⟨fun _ _ _ h1 h2 => IsTrans.trans (r := monthLe) _ _ _ h1 h2⟩

/-- Zero-pad the decimal representation of n to width w. -/
def padZeros (w : Nat) (n : Nat) : String :=
  String.mk (List.replicate (w - (toString n).length) '0') ++ toString n

/-- Canonical YYYY-MM rendering of a (year, month) key: the str() form of a
pandas Period with monthly frequency (line 60, astype(str)). -/
def renderPeriod (ym : Nat × Nat) : String :=
  padZeros 4 ym.1 ++ "-" ++ padZeros 2 ym.2

/-- Lines 33-36: the sidebar store filter. A selection of none (no store
chosen) or the "All" sentinel leaves the table whole; any other selection
keeps exactly the rows whose shopping_mall equals it. The selectbox always
supplies a string, and the code compares it against "All"; none is the
no-selection case of the Filter contract, which behaves like "All". -/
def filteredView (df : List SalesRecord) (selected_mall : Option String) : List SalesRecord :=
  match selected_mall with
  | none => df
  | some m => if m = "All" then df else df.filter fun r => decide (r.shopping_mall = m)

/-- Line 43: Total Revenue KPI, the sum of the revenue column. -/
def totalRevenue (view : List SalesRecord) : ℚ :=
  (view.map SalesRecord.revenue).sum

/-- Line 44: Total Orders KPI, nunique of invoice_no. -/
def totalOrders (view : List SalesRecord) : Nat :=
  ((view.map SalesRecord.invoice_no).dedup).length

/-- Line 45: Unique Customers KPI, nunique of customer_id. -/
def uniqueCustomers (view : List SalesRecord) : Nat :=
  ((view.map SalesRecord.customer_id).dedup).length

/-- Line 51: revenue grouped by shopping_mall, sorted descending by
revenue (store_perf). -/
def store_perf (view : List SalesRecord) : List (String × ℚ) :=
  List.insertionSort descVal (groupSum SalesRecord.shopping_mall SalesRecord.revenue view)

/-- The (year, month) grouping key of a record: to_period(M) of its
invoice_date. -/
def monthKey (r : SalesRecord) : Nat × Nat :=
  (r.invoice_date.year, r.invoice_date.month)

/-- Line 59: revenue grouped by calendar month of invoice_date; pandas
emits the month groups sorted in ascending (chronological) key order. -/
def monthlyAgg (view : List SalesRecord) : List ((Nat × Nat) × ℚ) :=
  List.insertionSort monthKeyLe (groupSum monthKey SalesRecord.revenue view)

/-- Lines 59-60: the monthly trend with the month key rendered as its
canonical YYYY-MM string. -/
def monthlyRevenueTrend (view : List SalesRecord) : List (String × ℚ) :=
  (monthlyAgg view).map fun e => (renderPeriod e.1, e.2)

/-- Line 68: value_counts of payment_method, one count per method,
descending by count (a count is the sum of 1 over the method's rows). -/
def paymentMethodDistribution (view : List SalesRecord) : List (String × ℚ) :=
  List.insertionSort descVal (groupSum SalesRecord.payment_method (fun _ => 1) view)

/-- Lines 89 and 116: the per-customer revenue totals
(groupby customer_id, sum revenue), shared by the top-customers chart and
the campaign simulation. -/
def total_spend (view : List SalesRecord) : List (String × ℚ) :=
  groupSum SalesRecord.customer_id SalesRecord.revenue view

/-- Line 89 with head(n) in place of the literal head(10): per-customer
totals sorted descending, truncated to the first n. -/
def topCustomers (view : List SalesRecord) (n : Nat) : List (String × ℚ) :=
  (List.insertionSort descVal (total_spend view)).take n

/-- Line 97 with head(n) in place of the literal head(10): per-category
totals sorted descending, truncated to the first n. -/
def topCategories (view : List SalesRecord) (n : Nat) : List (String × ℚ) :=
  (List.insertionSort descVal (groupSum SalesRecord.category SalesRecord.revenue view)).take n

/-- Line 105: per-customer count of distinct invoice_no values. -/
def freq (view : List SalesRecord) : List (String × Nat) :=
  ((view.map SalesRecord.customer_id).dedup).map fun c =>
    (c, (((view.filter fun r => decide (r.customer_id = c)).map SalesRecord.invoice_no).dedup).length)

/-- Line 106: customers with more than one distinct invoice. -/
def repeat_count (view : List SalesRecord) : Nat :=
  ((freq view).filter fun e => decide (1 < e.2)).length

/-- Line 107: customers with exactly one distinct invoice. -/
def one_time_count (view : List SalesRecord) : Nat :=
  ((freq view).filter fun e => decide (e.2 = 1)).length

/-- Series.quantile(q) with the default linear interpolation: sort the
values ascending, take position q * (n - 1), and interpolate linearly
between the two neighbouring entries. -/
def quantile (vals : List ℚ) (q : ℚ) : ℚ :=
  let s := List.insertionSort (fun a b : ℚ => a ≤ b) vals
  let h : ℚ := q * ((s.length : ℚ) - 1)
  let j : Nat := (Int.floor h).toNat
  let f : ℚ := h - (j : ℚ)
  s.getD j 0 + f * (s.getD (j + 1) 0 - s.getD j 0)

/-- Line 117: the (1 - top_pct/100) quantile of the per-customer totals. -/
def threshold (view : List SalesRecord) (top_pct : ℚ) : ℚ :=
  quantile ((total_spend view).map Prod.snd) (1 - top_pct / 100)

/-- Line 118: the customers whose total spend reaches the threshold. -/
def targets (view : List SalesRecord) (top_pct : ℚ) : List String :=
  ((total_spend view).filter fun e => decide (threshold view top_pct ≤ e.2)).map Prod.fst

/-- Line 119: the revenue of the view restricted to targeted customers. -/
def revenue_before (view : List SalesRecord) (top_pct : ℚ) : ℚ :=
  ((view.filter fun r => decide (r.customer_id ∈ targets view top_pct)).map SalesRecord.revenue).sum

/-- The record the simulation writes out (lines 121-127). -/
structure SimulationResult where
  target_pct : ℚ
  discount_rate : ℚ
  revenue_before : ℚ
  revenue_after : ℚ
  estimated_loss : ℚ
deriving DecidableEq

/-- Lines 114-127: the campaign simulation. The computation applies the
formulas to whatever parameters it is given; the sliders restrict the
range only at the UI. -/
def simulate (view : List SalesRecord) (discount top_pct : ℚ) : SimulationResult :=
  let rb := revenue_before view top_pct
  let ra := rb * (1 - discount)
  { target_pct := top_pct
    discount_rate := discount
    revenue_before := rb
    revenue_after := ra
    estimated_loss := rb - ra }

/-- Lines 20-21 of load_data: ensure the revenue column exists. The value
df.get(col, 0) is the column when present and the scalar 0 otherwise, so a
missing quantity or price column contributes a factor 0 to every row. The
argument n is the row count of the table; each optional argument is a
column given as its list of values. -/
def deriveRevenueCol (n : Nat) (revenue quantity price : Option (List ℚ)) : List ℚ :=
  match revenue with
  | some r => r
  | none =>
      List.zipWith (fun a b => a * b)
        (quantity.getD (List.replicate n 0)) (price.getD (List.replicate n 0))

/-- Sample dates for concrete evaluations. -/
def dJan : Date := ⟨2023, 1, 5⟩

/-- Second sample date, one month later. -/
def dFeb : Date := ⟨2023, 2, 9⟩

/-- Sample row: customer A, first invoice. -/
def recA1 : SalesRecord := ⟨"I1", "A", "Mall1", "Tech", 2, 50, "Cash", dJan, 100⟩

/-- Sample row: customer A, second invoice. -/
def recA2 : SalesRecord := ⟨"I2", "A", "Mall1", "Tech", 1, 50, "Card", dFeb, 50⟩

/-- Sample row: customer B, single invoice. -/
def recB1 : SalesRecord := ⟨"I3", "B", "Mall2", "Toys", 1, 30, "Cash", dJan, 30⟩

/-- The worked example of the spec: A spends 100 + 50, B spends 30. -/
def sampleView : List SalesRecord := [recA1, recA2, recB1]

/-- A view containing a negative-revenue row (a refund-like record). -/
def negView : List SalesRecord :=
  [⟨"I1", "A", "Mall1", "Tech", 1, 10, "Cash", dJan, 10⟩,
   ⟨"I2", "B", "Mall1", "Tech", 1, -5, "Cash", dJan, -5⟩]

/-- Splitting a mapped sum along a Boolean filter of the underlying list. -/
theorem sum_map_filter_split {α : Type} (p : α → Bool) (val : α → ℚ) (l : List α) :
    ((l.filter p).map val).sum + ((l.filter fun a => !p a).map val).sum = (l.map val).sum := by
  induction l with
  | nil => simp
  | cons x xs ih =>
      cases hx : p x <;> simp [List.filter_cons, hx] <;> linarith [ih]

/-- A sum of pointwise sums of two functions splits into two sums. -/
theorem sum_map_add {κ : Type} (f g : κ → ℚ) (ks : List κ) :
    (ks.map fun k => f k + g k).sum = (ks.map f).sum + (ks.map g).sum := by
  induction ks with
  | nil => simp
  | cons k ks ih => simp [ih]; ring

/-- An indicator sum over a list not containing the tag vanishes. -/
theorem sum_ite_not_mem {κ : Type} [DecidableEq κ] (c : κ) (v : ℚ) :
    ∀ ks : List κ, c ∉ ks → (ks.map fun k => if c = k then v else 0).sum = 0 := by
  intro ks
  induction ks with
  | nil => intro _; simp
  | cons k ks ih =>
      intro hm
      have hck : c ≠ k := fun h => hm (h ▸ List.mem_cons_self k ks)
      have hcs : c ∉ ks := fun h => hm (List.mem_cons_of_mem k h)
      simp [hck, ih hcs]

/-- An indicator sum over a duplicate-free list containing the tag once is
the tagged value. -/
theorem sum_ite_mem {κ : Type} [DecidableEq κ] (c : κ) (v : ℚ) :
    ∀ ks : List κ, ks.Nodup → c ∈ ks → (ks.map fun k => if c = k then v else 0).sum = v := by
  intro ks
  induction ks with
  | nil => intro _ h; cases h
  | cons k ks ih =>
      intro hnd hm
      rcases List.mem_cons.mp hm with h | h
      · subst h
        have hcs : c ∉ ks := (List.nodup_cons.mp hnd).1
        simp [sum_ite_not_mem c v ks hcs]
      · have hck : c ≠ k := by
          intro he
          exact (List.nodup_cons.mp hnd).1 (he ▸ h)
        simp [hck, ih (List.nodup_cons.mp hnd).2 h]

/-- One cons step of a group sum: the head contributes to exactly its own
group. -/
theorem sumFilter_cons {α κ : Type} [DecidableEq κ] (key : α → κ) (val : α → ℚ)
    (k : κ) (x : α) (xs : List α) :
    sumFilter key val k (x :: xs) =
      (if key x = k then val x else 0) + sumFilter key val k xs := by
  unfold sumFilter
  by_cases h : key x = k <;> simp [List.filter_cons, h]

/-- Summing the group sums over any duplicate-free key list covering the
records recovers the total: the groups partition the list. -/
theorem fiberSum_eq_sum {α κ : Type} [DecidableEq κ] (key : α → κ) (val : α → ℚ)
    (ks : List κ) (hnd : ks.Nodup) :
    ∀ l : List α, (∀ a ∈ l, key a ∈ ks) →
      (ks.map fun k => sumFilter key val k l).sum = (l.map val).sum := by
  intro l
  induction l with
  | nil => intro _; simp [sumFilter]
  | cons x xs ih =>
      intro hcov
      have hcx : key x ∈ ks := hcov x (List.mem_cons_self x xs)
      have hcxs : ∀ a ∈ xs, key a ∈ ks := fun a ha => hcov a (List.mem_cons_of_mem x ha)
      have hstep : (ks.map fun k => sumFilter key val k (x :: xs)).sum =
          (ks.map fun k => (if key x = k then val x else 0) + sumFilter key val k xs).sum := by
        congr 1
        exact List.map_congr_left fun k _ => sumFilter_cons key val k x xs
      rw [hstep, sum_map_add, sum_ite_mem (key x) (val x) ks hnd hcx, ih hcxs]
      simp

/-- The values of a group sum add up to the total of the summed column. -/
theorem groupSum_snd_sum {α κ : Type} [DecidableEq κ] (key : α → κ) (val : α → ℚ)
    (l : List α) :
    ((groupSum key val l).map Prod.snd).sum = (l.map val).sum := by
  unfold groupSum
  rw [List.map_map]
  exact fiberSum_eq_sum key val _ (List.nodup_dedup _) l
    (fun a ha => List.mem_dedup.mpr (List.mem_map_of_mem key ha))

/-- Claim C1: for every view, the Total Revenue KPI equals the sum of the
per-store revenues of the store-performance aggregation, because the store
groups partition the view's records. -/
theorem totalRevenue_eq_storePerf_sum (view : List SalesRecord) :
    totalRevenue view = ((store_perf view).map Prod.snd).sum := by
  have hperm : List.Perm (store_perf view)
      (groupSum SalesRecord.shopping_mall SalesRecord.revenue view) :=
    List.perm_insertionSort _ _
  rw [(hperm.map Prod.snd).sum_eq, groupSum_snd_sum]
  rfl

/-- Every entry of the invoice-frequency table counts at least one
invoice: each listed customer stems from a record of the view. -/
theorem freq_snd_pos (view : List SalesRecord) :
    ∀ e ∈ freq view, 1 ≤ e.2 := by
  intro e he
  unfold freq at he
  rcases List.mem_map.mp he with ⟨c, hc, rfl⟩
  rcases List.mem_map.mp (List.mem_dedup.mp hc) with ⟨r, hr, hrc⟩
  have hrf : r ∈ view.filter fun r => decide (r.customer_id = c) :=
    List.mem_filter.mpr ⟨hr, by simp [hrc]⟩
  have hinv : r.invoice_no ∈
      ((view.filter fun r => decide (r.customer_id = c)).map SalesRecord.invoice_no).dedup :=
    List.mem_dedup.mpr (List.mem_map_of_mem _ hrf)
  exact List.length_pos.mpr (List.ne_nil_of_mem hinv)

/-- A Boolean filter and its complement split the length of a list. -/
theorem length_filter_split {α : Type} (p : α → Bool) (l : List α) :
    (l.filter p).length + (l.filter fun a => !p a).length = l.length := by
  induction l with
  | nil => rfl
  | cons x xs ih => cases hx : p x <;> simp [List.filter_cons, hx] <;> omega

/-- Claim C2: the Unique Customers KPI equals repeat customers plus
one-time customers as classified from distinct-invoice counts, because
every counted customer has at least one invoice. -/
theorem uniqueCustomers_eq_repeat_add_one_time (view : List SalesRecord) :
    uniqueCustomers view = repeat_count view + one_time_count view := by
  have hlen : uniqueCustomers view = (freq view).length := by
    unfold uniqueCustomers freq
    rw [List.length_map]
  have hco : (freq view).filter (fun e => decide (e.2 = 1)) =
      (freq view).filter (fun e => !decide (1 < e.2)) := by
    apply List.filter_congr
    intro e he
    have h1 := freq_snd_pos view e he
    rcases Nat.lt_or_ge 1 e.2 with h | h
    · have hne : e.2 ≠ 1 := by omega
      simp [h, hne]
    · have he1 : e.2 = 1 := by omega
      simp [he1]
  rw [hlen]
  unfold repeat_count one_time_count
  rw [hco]
  exact (length_filter_split (fun e => decide (1 < e.2)) (freq view)).symm

/-- Concrete evaluation: the per-customer totals of the worked example. -/
theorem total_spend_sample : total_spend sampleView = [("A", 150), ("B", 30)] := by
  simp [total_spend, groupSum, sumFilter, sampleView, recA1, recA2, recB1,
    List.dedup_cons_of_mem, List.dedup_cons_of_not_mem, List.filter_cons]
  norm_num

/-- Concrete evaluation: at top percent 100 the threshold is the minimum
per-customer total of the worked example. -/
theorem threshold_sample : threshold sampleView 100 = 30 := by
  rw [threshold, total_spend_sample]
  show quantile [150, 30] (1 - 100/100) = 30
  norm_num [quantile, List.insertionSort, List.orderedInsert]

/-- Concrete evaluation: at top percent 100 both customers are targeted. -/
theorem targets_sample : targets sampleView 100 = ["A", "B"] := by
  rw [targets, total_spend_sample, threshold_sample]
  norm_num [List.filter_cons]

/-- Concrete evaluation: the targeted revenue of the worked example at top
percent 100 is the whole revenue. -/
theorem revenue_before_sample : revenue_before sampleView 100 = 180 := by
  rw [revenue_before, targets_sample]
  simp [sampleView, recA1, recA2, recB1, List.filter_cons]
  norm_num

/-- Concrete evaluation: per-customer totals of the refund view. -/
theorem total_spend_neg : total_spend negView = [("A", 10), ("B", -5)] := by
  simp [total_spend, groupSum, sumFilter, negView, dJan,
    List.dedup_cons_of_mem, List.dedup_cons_of_not_mem, List.filter_cons]

/-- Concrete evaluation: threshold of the refund view at top percent 100. -/
theorem threshold_neg : threshold negView 100 = -5 := by
  rw [threshold, total_spend_neg]
  show quantile [10, -5] (1 - 100/100) = -5
  norm_num [quantile, List.insertionSort, List.orderedInsert]

/-- Concrete evaluation: both customers of the refund view are targeted at
top percent 100. -/
theorem targets_neg : targets negView 100 = ["A", "B"] := by
  rw [targets, total_spend_neg, threshold_neg]
  norm_num [List.filter_cons]

/-- Concrete evaluation: the targeted revenue of the refund view nets the
refund against the sale. -/
theorem revenue_before_neg : revenue_before negView 100 = 5 := by
  rw [revenue_before, targets_neg]
  simp [negView, dJan, List.filter_cons]
  norm_num

/-- Concrete evaluation: customer A's total in the refund view. -/
theorem sumFilter_neg_A :
    sumFilter SalesRecord.customer_id SalesRecord.revenue "A" negView = 10 := by
  simp [sumFilter, negView, dJan, List.filter_cons]

/-- Concrete evaluation: customer B's total in the refund view. -/
theorem sumFilter_neg_B :
    sumFilter SalesRecord.customer_id SalesRecord.revenue "B" negView = -5 := by
  simp [sumFilter, negView, dJan, List.filter_cons]

/-- Concrete evaluation: the monthly aggregation of the worked example. -/
theorem monthlyAgg_sample : monthlyAgg sampleView = [((2023, 1), 130), ((2023, 2), 50)] := by
  simp [monthlyAgg, groupSum, sumFilter, sampleView, recA1, recA2, recB1, dJan, dFeb, monthKey,
    List.dedup_cons_of_mem, List.dedup_cons_of_not_mem, List.filter_cons,
    List.insertionSort, List.orderedInsert, monthKeyLe, monthLe]
  norm_num

/-- Concrete evaluation: the single top customer of the worked example. -/
theorem topCustomers_sample : topCustomers sampleView 1 = [("A", 150)] := by
  rw [topCustomers, total_spend_sample]
  norm_num [List.insertionSort, List.orderedInsert, descVal]

/-- Concrete evaluation: customer A's total in the worked example. -/
theorem sumFilter_sample_A :
    sumFilter SalesRecord.customer_id SalesRecord.revenue "A" sampleView = 150 := by
  simp [sumFilter, sampleView, recA1, recA2, recB1, List.filter_cons]
  norm_num

/-- Concrete evaluation: customer B's total in the worked example. -/
theorem sumFilter_sample_B :
    sumFilter SalesRecord.customer_id SalesRecord.revenue "B" sampleView = 30 := by
  simp [sumFilter, sampleView, recA1, recA2, recB1, List.filter_cons]

/-- Claim C3: the simulation's outputs obey the discount formulas exactly:
revenue after = revenue before * (1 - rate), the estimated loss is their
exact difference, a positive rate cannot increase a nonnegative revenue,
and a zero rate means zero loss. -/
theorem simulate_formulas (view : List SalesRecord) (d p : ℚ) :
    (simulate view d p).revenue_after = (simulate view d p).revenue_before * (1 - d) ∧
    (simulate view d p).estimated_loss =
      (simulate view d p).revenue_before - (simulate view d p).revenue_after ∧
    (0 < d → 0 ≤ (simulate view d p).revenue_before →
      (simulate view d p).revenue_after ≤ (simulate view d p).revenue_before) ∧
    (d = 0 → (simulate view d p).estimated_loss = 0) := by
  refine ⟨rfl, rfl, ?_, ?_⟩
  · intro hd hrb
    show revenue_before view p * (1 - d) ≤ revenue_before view p
    have hrb2 : (0 : ℚ) ≤ revenue_before view p := hrb
    nlinarith [mul_nonneg hrb2 hd.le]
  · intro hd
    show revenue_before view p - revenue_before view p * (1 - d) = 0
    rw [hd]; ring

/-- Concrete instance of the discount inequality on the spec's worked
example at a 10 percent discount targeting the top 100 percent. -/
theorem simulate_formulas_witness :
    0 < (1 : ℚ)/10 ∧ 0 ≤ (simulate sampleView (1/10) 100).revenue_before ∧
    (simulate sampleView (1/10) 100).revenue_after ≤ (simulate sampleView (1/10) 100).revenue_before :=
  ⟨by norm_num,
   by show (0:ℚ) ≤ revenue_before sampleView 100; rw [revenue_before_sample]; norm_num,
   (simulate_formulas sampleView (1/10) 100).2.2.1 (by norm_num)
     (by show (0:ℚ) ≤ revenue_before sampleView 100; rw [revenue_before_sample]; norm_num)⟩

/-- Counterexample to claim C4 as stated: at discount rate 2, far outside
[0,1], the simulation still produces a result record (with a negative
revenue after) instead of failing with any error. -/
theorem simulate_out_of_range_produces_result :
    simulate sampleView 2 100 = ⟨100, 2, 180, -180, 360⟩ := by
  simp [simulate, revenue_before_sample]
  norm_num

/-- Claim C4 amended: the computation validates nothing; for parameters
outside the declared domains it still produces a result obeying the
discount formulas (loss = revenue before * rate). Range restriction
happens only at the UI sliders. -/
theorem simulate_no_parameter_validation (view : List SalesRecord) (d p : ℚ)
    (hout : d < 0 ∨ 1 < d ∨ p ≤ 0 ∨ 100 < p) :
    (simulate view d p).estimated_loss = (simulate view d p).revenue_before * d := by
  show revenue_before view p - revenue_before view p * (1 - d) = revenue_before view p * d
  ring

/-- Concrete instance of the amended C4 at the out-of-range rate 2. -/
theorem simulate_no_parameter_validation_witness :
    (simulate sampleView 2 50).estimated_loss = (simulate sampleView 2 50).revenue_before * 2 :=
  simulate_no_parameter_validation sampleView 2 50 (Or.inr (Or.inl (by norm_num)))

/-- Claim C5: a selection of none or "All" returns the table whole and in
order; any other selection returns exactly the records of that store, as an
order-preserving sublist; an unmatched selection yields the empty view and
never fails. -/
theorem filteredView_spec (df : List SalesRecord) :
    filteredView df none = df ∧
    filteredView df (some "All") = df ∧
    ∀ m : String, m ≠ "All" →
      List.Sublist (filteredView df (some m)) df ∧
      (∀ r : SalesRecord, r ∈ filteredView df (some m) ↔ r ∈ df ∧ r.shopping_mall = m) ∧
      ((∀ r ∈ df, r.shopping_mall ≠ m) → filteredView df (some m) = []) := by
  refine ⟨rfl, by simp [filteredView], ?_⟩
  intro m hm
  have hdef : filteredView df (some m) = df.filter fun r => decide (r.shopping_mall = m) := by
    simp [filteredView, hm]
  refine ⟨?_, ?_, ?_⟩
  · rw [hdef]; exact List.filter_sublist df
  · intro r; rw [hdef, List.mem_filter]; simp
  · intro hno
    rw [hdef, List.filter_eq_nil_iff]
    intro r hr
    simpa using hno r hr

/-- Concrete instance of C5: filtering the sample view by an unknown store
yields the empty view. -/
theorem filteredView_spec_witness :
    filteredView sampleView (some "Nowhere") = [] :=
  ((filteredView_spec sampleView).2.2 "Nowhere" (by decide)).2.2 (by decide)

/-- Claim C6: on the empty view, as produced for instance by filtering on
an unknown store, every KPI scalar is 0, every aggregation is empty, and
all simulation outputs are 0; every operation is total and none fails. -/
theorem empty_view_all_outputs_zero :
    filteredView sampleView (some "Nowhere") = [] ∧
    totalRevenue [] = 0 ∧ totalOrders [] = 0 ∧ uniqueCustomers [] = 0 ∧
    store_perf [] = [] ∧ monthlyRevenueTrend [] = [] ∧
    paymentMethodDistribution [] = [] ∧
    (∀ n, topCustomers [] n = []) ∧ (∀ n, topCategories [] n = []) ∧
    (∀ d p, (simulate [] d p).revenue_before = 0 ∧
      (simulate [] d p).revenue_after = 0 ∧ (simulate [] d p).estimated_loss = 0) := by
  refine ⟨by decide, rfl, rfl, rfl, rfl, rfl, rfl, ?_, ?_, ?_⟩
  · intro n; simp [topCustomers, total_spend, groupSum]
  · intro n; simp [topCategories, groupSum]
  · intro d p
    refine ⟨rfl, ?_, ?_⟩
    · show revenue_before [] p * (1 - d) = 0
      have h0 : revenue_before [] p = 0 := rfl
      rw [h0]; ring
    · show revenue_before [] p - revenue_before [] p * (1 - d) = 0
      have h0 : revenue_before [] p = 0 := rfl
      rw [h0]; ring

/-- Counterexample to claim C7 as stated: a sales table lacking the
revenue column and also lacking the price column loads successfully — every
row gets revenue 0 from the 0 default of df.get — instead of failing with
DataLoadError. -/
theorem deriveRevenueCol_no_error :
    deriveRevenueCol 2 none (some [2, 3]) none = [0, 0] := by
  simp [deriveRevenueCol, List.replicate, List.zipWith]

/-- Claim C7 amended: load performs no column validation and never fails on
missing columns; the revenue column is kept when present and otherwise
derived once, at load time, as quantity times price with a missing factor
column counting as 0, so every loaded record carries a revenue value. -/
theorem deriveRevenueCol_spec (n : Nat) (r q p : Option (List ℚ))
    (hq : ∀ c, q = some c → c.length = n)
    (hp : ∀ c, p = some c → c.length = n) :
    ((∀ c, r = some c → c.length = n) → (deriveRevenueCol n r q p).length = n) ∧
    (∀ c, r = some c → deriveRevenueCol n r q p = c) ∧
    (∀ qs ps, r = none → q = some qs → p = some ps →
      deriveRevenueCol n r q p = List.zipWith (fun a b => a * b) qs ps) := by
  refine ⟨?_, ?_, ?_⟩
  · intro hr
    cases r with
    | some c => simpa [deriveRevenueCol] using hr c rfl
    | none =>
        have hql : (q.getD (List.replicate n 0)).length = n := by
          cases q with
          | some c => simpa using hq c rfl
          | none => simp
        have hpl : (p.getD (List.replicate n 0)).length = n := by
          cases p with
          | some c => simpa using hp c rfl
          | none => simp
        simp [deriveRevenueCol, List.length_zipWith, hql, hpl]
  · intro c hc
    subst hc
    rfl
  · intro qs ps hr hqs hps
    subst hr; subst hqs; subst hps
    rfl

/-- Concrete instance of the amended C7: with revenue absent, the loaded
revenue column is the rowwise product of quantity and price. -/
theorem deriveRevenueCol_spec_witness :
    deriveRevenueCol 2 none (some [2, 3]) (some [5, 7]) = [10, 21] := by
  have h := (deriveRevenueCol_spec 2 none (some [2, 3]) (some [5, 7])
    (fun c hc => by injection hc with h2; rw [← h2]; rfl)
    (fun c hc => by injection hc with h2; rw [← h2]; rfl)).2.2 [2, 3] [5, 7] rfl rfl rfl
  rw [h]
  norm_num [List.zipWith]

/-- The entries of a group sum are exactly the group keys paired with the
group sums over the whole list. -/
theorem mem_groupSum {α κ : Type} [DecidableEq κ] (key : α → κ) (val : α → ℚ)
    (l : List α) (e : κ × ℚ) (he : e ∈ groupSum key val l) :
    e.1 ∈ l.map key ∧ e.2 = sumFilter key val e.1 l := by
  rcases List.mem_map.mp he with ⟨k, hk, rfl⟩
  exact ⟨List.mem_dedup.mp hk, rfl⟩

/-- The keys of a group sum are the distinct keys of the list. -/
theorem groupSum_map_fst {α κ : Type} [DecidableEq κ] (key : α → κ) (val : α → ℚ)
    (l : List α) :
    (groupSum key val l).map Prod.fst = (l.map key).dedup := by
  unfold groupSum
  rw [List.map_map]
  exact List.map_id _

/-- Claim C8: the monthly trend has exactly one entry per distinct calendar
month of the view, carrying that month's revenue sum, with the months in
strictly ascending chronological order, and is rendered by pairing each
month key's canonical YYYY-MM string with its sum. -/
theorem monthlyRevenueTrend_spec (view : List SalesRecord) :
    ((monthlyAgg view).map Prod.fst).Nodup ∧
    (∀ ym : Nat × Nat, ym ∈ (monthlyAgg view).map Prod.fst ↔ ym ∈ view.map monthKey) ∧
    (∀ e ∈ monthlyAgg view, e.2 = sumFilter monthKey SalesRecord.revenue e.1 view) ∧
    List.Sorted monthLt ((monthlyAgg view).map Prod.fst) ∧
    monthlyRevenueTrend view = (monthlyAgg view).map fun e => (renderPeriod e.1, e.2) := by
  have hperm : List.Perm (monthlyAgg view) (groupSum monthKey SalesRecord.revenue view) :=
    List.perm_insertionSort _ _
  have hkeys : List.Perm ((monthlyAgg view).map Prod.fst) ((view.map monthKey).dedup) := by
    rw [← groupSum_map_fst monthKey SalesRecord.revenue view]
    exact hperm.map Prod.fst
  have hnd : ((monthlyAgg view).map Prod.fst).Nodup :=
    hkeys.nodup_iff.mpr (List.nodup_dedup _)
  have hle : List.Sorted monthLe ((monthlyAgg view).map Prod.fst) := by
    have hs : List.Sorted monthKeyLe (monthlyAgg view) :=
      List.sorted_insertionSort monthKeyLe _
    exact (List.pairwise_map).mpr hs
  refine ⟨hnd, ?_, ?_, ?_, rfl⟩
  · intro ym
    rw [hkeys.mem_iff, List.mem_dedup]
  · intro e he
    exact (mem_groupSum monthKey SalesRecord.revenue view e (hperm.mem_iff.mp he)).2
  · have hcomb := hle.and hnd
    refine hcomb.imp ?_
    intro a b hab
    rcases hab.1 with h | ⟨h1, h2⟩
    · exact Or.inl h
    · refine Or.inr ⟨h1, ?_⟩
      have hne : a.2 ≠ b.2 := fun he => hab.2 (Prod.ext h1 he)
      omega

/-- Concrete instance of C8 on the worked example: January 2023 appears in
the monthly aggregation and carries the January sum 130. -/
theorem monthlyRevenueTrend_spec_witness :
    (((2023, 1), (130 : ℚ)) ∈ monthlyAgg sampleView) ∧
    (130 : ℚ) = sumFilter monthKey SalesRecord.revenue (2023, 1) sampleView :=
  ⟨by rw [monthlyAgg_sample]; simp,
   (monthlyRevenueTrend_spec sampleView).2.2.1 ((2023, 1), 130)
     (by rw [monthlyAgg_sample]; simp)⟩

/-- Claim C9: top customers returns at most n entries, sorted descending by
revenue, and every entry belongs to the full per-customer aggregation with
its value the customer's total over the whole view. -/
theorem topCustomers_spec (view : List SalesRecord) (n : Nat) :
    (topCustomers view n).length ≤ n ∧
    List.Sorted descVal (topCustomers view n) ∧
    ∀ e ∈ topCustomers view n,
      e ∈ total_spend view ∧
      e.2 = sumFilter SalesRecord.customer_id SalesRecord.revenue e.1 view := by
  refine ⟨?_, ?_, ?_⟩
  · rw [topCustomers, List.length_take]
    exact min_le_left _ _
  · have hs : List.Sorted descVal (List.insertionSort descVal (total_spend view)) :=
      List.sorted_insertionSort descVal _
    exact hs.sublist (List.take_sublist n _)
  · intro e he
    have hmem : e ∈ List.insertionSort descVal (total_spend view) :=
      List.take_subset n _ he
    have hfull : e ∈ total_spend view :=
      (List.perm_insertionSort descVal (total_spend view)).mem_iff.mp hmem
    exact ⟨hfull, (mem_groupSum SalesRecord.customer_id SalesRecord.revenue view e hfull).2⟩

/-- Concrete instance of C9 on the worked example: the single top customer
is A with the whole-view total 150, an entry of the full per-customer
aggregation. -/
theorem topCustomers_spec_witness :
    ((("A" : String), (150 : ℚ)) ∈ topCustomers sampleView 1) ∧
    (("A", (150 : ℚ)) ∈ total_spend sampleView) :=
  ⟨by rw [topCustomers_sample]; simp,
   ((topCustomers_spec sampleView 1).2.2 ("A", 150) (by rw [topCustomers_sample]; simp)).1⟩

/-- The linear interpolation read at a position within the sorted range
never exceeds an upper bound of the list's values. -/
theorem interp_le (s : List ℚ) (t M : ℚ)
    (ht0 : 0 ≤ t) (htle : t ≤ (s.length : ℚ) - 1) (hsM : ∀ v ∈ s, v ≤ M) :
    s.getD (Int.floor t).toNat 0 +
      (t - ((Int.floor t).toNat : ℚ)) *
        (s.getD ((Int.floor t).toNat + 1) 0 - s.getD (Int.floor t).toNat 0) ≤ M := by
  have hfl0 : (0 : ℤ) ≤ Int.floor t := Int.floor_nonneg.mpr ht0
  have hjq : (((Int.floor t).toNat : ℚ)) = ((Int.floor t : ℤ) : ℚ) := by
    exact_mod_cast Int.toNat_of_nonneg hfl0
  have hjh : (((Int.floor t).toNat : ℚ)) ≤ t := by
    rw [hjq]; exact Int.floor_le t
  have hjn : (Int.floor t).toNat < s.length := by
    have h1 : (((Int.floor t).toNat : ℚ)) < (s.length : ℚ) := by linarith
    exact_mod_cast h1
  have hgj : s.getD (Int.floor t).toNat 0 ≤ M := by
    rw [List.getD_eq_getElem s 0 hjn]
    exact hsM _ (List.getElem_mem hjn)
  rcases eq_or_lt_of_le hjh with hEq | hLt
  · have hf : t - (((Int.floor t).toNat : ℚ)) = 0 := by linarith
    rw [hf, zero_mul, add_zero]
    exact hgj
  · have hj1n : (Int.floor t).toNat + 1 < s.length := by
      have h2 : (((Int.floor t).toNat : ℚ)) < (s.length : ℚ) - 1 := lt_of_lt_of_le hLt htle
      have h3 : (((Int.floor t).toNat : ℚ)) + 1 < (s.length : ℚ) := by linarith
      exact_mod_cast h3
    have hgj1 : s.getD ((Int.floor t).toNat + 1) 0 ≤ M := by
      rw [List.getD_eq_getElem s 0 hj1n]
      exact hsM _ (List.getElem_mem hj1n)
    have hf1 : t - (((Int.floor t).toNat : ℚ)) < 1 := by
      rw [hjq]
      have := Int.lt_floor_add_one t
      linarith
    have hf0 : 0 ≤ t - (((Int.floor t).toNat : ℚ)) := by linarith
    nlinarith [mul_le_mul_of_nonneg_left hgj1 hf0,
      mul_le_mul_of_nonneg_left hgj (by linarith : (0:ℚ) ≤ 1 - (t - (((Int.floor t).toNat : ℚ))))]

/-- The interpolating quantile of a nonempty list at a position q in [0,1]
never exceeds an upper bound of the values. -/
theorem quantile_le_of_forall_le (vals : List ℚ) (q M : ℚ)
    (hne : vals ≠ []) (hq0 : 0 ≤ q) (hq1 : q ≤ 1)
    (hM : ∀ v ∈ vals, v ≤ M) :
    quantile vals q ≤ M := by
  have hperm : List.Perm (List.insertionSort (fun a b : ℚ => a ≤ b) vals) vals :=
    List.perm_insertionSort _ _
  have hsne : List.insertionSort (fun a b : ℚ => a ≤ b) vals ≠ [] := by
    intro h
    rw [h] at hperm
    exact hne hperm.symm.eq_nil
  have hsM : ∀ v ∈ List.insertionSort (fun a b : ℚ => a ≤ b) vals, v ≤ M :=
    fun v hv => hM v (hperm.mem_iff.mp hv)
  have hn1 : 1 ≤ (List.insertionSort (fun a b : ℚ => a ≤ b) vals).length :=
    List.length_pos.mpr hsne
  have hn1Q : (0:ℚ) ≤ ((List.insertionSort (fun a b : ℚ => a ≤ b) vals).length : ℚ) - 1 := by
    have h1 : (1:ℚ) ≤ ((List.insertionSort (fun a b : ℚ => a ≤ b) vals).length : ℚ) := by
      exact_mod_cast hn1
    linarith
  exact interp_le _ _ M (mul_nonneg hq0 hn1Q)
    (by calc q * (((List.insertionSort (fun a b : ℚ => a ≤ b) vals).length : ℚ) - 1)
          ≤ 1 * (((List.insertionSort (fun a b : ℚ => a ≤ b) vals).length : ℚ) - 1) :=
            mul_le_mul_of_nonneg_right hq1 hn1Q
        _ = ((List.insertionSort (fun a b : ℚ => a ≤ b) vals).length : ℚ) - 1 := one_mul _)
    hsM

/-- Counterexample to claim C10 as stated: in a view with a negative-revenue
record, at top percent 100 the maximal customer A (total 10, above B's -5)
is targeted, yet the simulation's revenue before (5, the sum over both
targets) is strictly below A's total, refuting the claimed lower bound. -/
theorem simulate_negative_revenue_cex :
    negView ≠ [] ∧
    sumFilter SalesRecord.customer_id SalesRecord.revenue "B" negView ≤
      sumFilter SalesRecord.customer_id SalesRecord.revenue "A" negView ∧
    ("A" ∈ targets negView 100) ∧
    (simulate negView 0 100).revenue_before <
      sumFilter SalesRecord.customer_id SalesRecord.revenue "A" negView := by
  refine ⟨by simp [negView], ?_, ?_, ?_⟩
  · rw [sumFilter_neg_A, sumFilter_neg_B]; norm_num
  · rw [targets_neg]; simp
  · show revenue_before negView 100 <
      sumFilter SalesRecord.customer_id SalesRecord.revenue "A" negView
    rw [revenue_before_neg, sumFilter_neg_A]; norm_num

/-- Claim C10 amended: for every nonempty view and topPercent in (0,100],
every customer of maximal total revenue is targeted (the quantile threshold
never exceeds the maximal total), so the target set is nonempty; and
provided every record's revenue is nonnegative, the revenue before is at
least that maximal customer's total. -/
theorem simulate_targets_max (view : List SalesRecord) (d p : ℚ) (c : String)
    (hne : view ≠ []) (hp0 : 0 < p) (hp1 : p ≤ 100)
    (hc : c ∈ view.map SalesRecord.customer_id)
    (hmax : ∀ x ∈ view.map SalesRecord.customer_id,
      sumFilter SalesRecord.customer_id SalesRecord.revenue x view ≤
        sumFilter SalesRecord.customer_id SalesRecord.revenue c view) :
    c ∈ targets view p ∧ targets view p ≠ [] ∧
    ((∀ r ∈ view, 0 ≤ r.revenue) →
      sumFilter SalesRecord.customer_id SalesRecord.revenue c view ≤
        (simulate view d p).revenue_before) := by
  have hvalsM : ∀ v ∈ (total_spend view).map Prod.snd,
      v ≤ sumFilter SalesRecord.customer_id SalesRecord.revenue c view := by
    intro v hv
    rcases List.mem_map.mp hv with ⟨e, he, rfl⟩
    have hme := mem_groupSum SalesRecord.customer_id SalesRecord.revenue view e he
    rw [hme.2]
    exact hmax e.1 hme.1
  have hvne : (total_spend view).map Prod.snd ≠ [] := by
    have hcd : c ∈ (view.map SalesRecord.customer_id).dedup := List.mem_dedup.mpr hc
    have hcts : (c, sumFilter SalesRecord.customer_id SalesRecord.revenue c view)
        ∈ total_spend view := List.mem_map.mpr ⟨c, hcd, rfl⟩
    exact List.ne_nil_of_mem (List.mem_map_of_mem Prod.snd hcts)
  have hq0 : (0:ℚ) ≤ 1 - p / 100 := by linarith
  have hq1 : (1:ℚ) - p / 100 ≤ 1 := by linarith
  have hthr : threshold view p ≤
      sumFilter SalesRecord.customer_id SalesRecord.revenue c view :=
    quantile_le_of_forall_le _ _ _ hvne hq0 hq1 hvalsM
  have hcd : c ∈ (view.map SalesRecord.customer_id).dedup := List.mem_dedup.mpr hc
  have hcts : (c, sumFilter SalesRecord.customer_id SalesRecord.revenue c view)
      ∈ total_spend view := List.mem_map.mpr ⟨c, hcd, rfl⟩
  have hctargets : c ∈ targets view p := by
    unfold targets
    apply List.mem_map.mpr
    refine ⟨(c, sumFilter SalesRecord.customer_id SalesRecord.revenue c view), ?_, rfl⟩
    apply List.mem_filter.mpr
    exact ⟨hcts, decide_eq_true hthr⟩
  refine ⟨hctargets, List.ne_nil_of_mem hctargets, ?_⟩
  intro hnn
  have hsubl : List.Sublist (view.filter fun r => decide (r.customer_id = c))
      (view.filter fun r => decide (r.customer_id ∈ targets view p)) := by
    apply List.monotone_filter_right
    intro r hr
    have hrc : r.customer_id = c := of_decide_eq_true hr
    exact decide_eq_true (hrc ▸ hctargets)
  have hnonneg : ∀ a ∈ (view.filter fun r =>
      decide (r.customer_id ∈ targets view p)).map SalesRecord.revenue, 0 ≤ a := by
    intro a ha
    rcases List.mem_map.mp ha with ⟨r, hrf, rfl⟩
    exact hnn r (List.mem_of_mem_filter hrf)
  exact List.Sublist.sum_le_sum (hsubl.map SalesRecord.revenue) hnonneg

/-- Concrete instance of the amended C10 on the worked example: the maximal
customer A is targeted at top percent 100 and the targeted revenue covers
A's total. -/
theorem simulate_targets_max_witness :
    ("A" ∈ targets sampleView 100) ∧
    sumFilter SalesRecord.customer_id SalesRecord.revenue "A" sampleView ≤
      (simulate sampleView 0 100).revenue_before := by
  have hmax : ∀ x ∈ sampleView.map SalesRecord.customer_id,
      sumFilter SalesRecord.customer_id SalesRecord.revenue x sampleView ≤
        sumFilter SalesRecord.customer_id SalesRecord.revenue "A" sampleView := by
    intro x hx
    have hx2 : x = "A" ∨ x = "A" ∨ x = "B" := by
      simpa [sampleView, recA1, recA2, recB1] using hx
    rcases hx2 with rfl | rfl | rfl
    · exact le_refl _
    · exact le_refl _
    · rw [sumFilter_sample_A, sumFilter_sample_B]; norm_num
  have hnn : ∀ r ∈ sampleView, 0 ≤ r.revenue := by
    intro r hr
    have hr2 : r = recA1 ∨ r = recA2 ∨ r = recB1 := by
      simpa [sampleView] using hr
    rcases hr2 with rfl | rfl | rfl <;> norm_num [recA1, recA2, recB1]
  obtain ⟨h1, _, h3⟩ := simulate_targets_max sampleView 0 100 "A"
    (by simp [sampleView]) (by norm_num) (by norm_num)
    (by simp [sampleView, recA1]) hmax
  exact ⟨h1, h3 hnn⟩

end Retail
